import Mathlib

/-!
Verification of the vLoRA continuous-batching scheduler (`src/vlora/entrypoints/llm.py`)
against its natural-language specification.

Shallow embedding conventions:
* Token ids are `ℕ`; logits rows are `List ℚ` (one rational per vocabulary entry).
* Decoded text is `List Char` (a Python `str` is a sequence of code points).
* The external detokenizer (`tokenizer.decode`) is an arbitrary function
  `d : List ℕ → List Char` — per the spec (§6) it is deterministic and stateless.
* The external HuggingFace top-p / top-k warpers and the softmax+multinomial
  sampler are out of scope per spec §1 ("the sampling-distribution transforms …
  beyond their black-box contract") and are abstract function parameters
  (`Warpers`, `sample`); temperature scaling and repetition penalty are modelled
  concretely since their interaction is what the claims examine.
* Python `dict` is an insertion-ordered association list; `sorted` (a stable
  merge sort) is `List.mergeSort`.
-/

namespace VLora

/-- Scalar sampling fields stored on `TextGeneration` (llm.py lines 30–42,
`self.temperature`, `self.repetition_penalty`, `self.top_p`, `self.top_k`,
`self.maxlen`, `self.stop_token_id`), grouped in one record. -/
structure SamplingConfig where
  temperature : ℚ
  repetition_penalty : ℚ
  top_p : ℚ
  top_k : ℤ
  maxlen : ℕ
  stop_token_id : ℕ

/-- The four logits-processor kinds that `TextGeneration.__init__` may append to
`self.logits_processor` (llm.py lines 45–57). -/
inductive Proc
  | temp
  | repPen
  | topP
  | topK
deriving DecidableEq

/-- The processor list built in `TextGeneration.__init__` (llm.py lines 45–57), in
the order the code appends: temperature warper (if `temperature > 0` and `≠ 1`),
then repetition penalty (if `> 1`), then top-p (if `0 < top_p < 1`), then top-k
(if `top_k > 0`). `LogitsProcessorList` applies its entries in list order. -/
def logitsProcessorList (cfg : SamplingConfig) : List Proc :=
  (if 0 < cfg.temperature ∧ cfg.temperature ≠ 1 then [Proc.temp] else [])
    ++ (if 1 < cfg.repetition_penalty then [Proc.repPen] else [])
    ++ (if 0 < cfg.top_p ∧ cfg.top_p < 1 then [Proc.topP] else [])
    ++ (if 0 < cfg.top_k then [Proc.topK] else [])

/-- `transformers.TemperatureLogitsWarper`: divide every score by the temperature. -/
def temperatureWarp (t : ℚ) (scores : List ℚ) : List ℚ :=
  scores.map (fun s => s / t)

/-- Helper for `repetitionPenaltyProcess`, walking the scores with their vocabulary
index `i`: an index occurring in the token history is penalised
(`score * p` if negative, `score / p` otherwise), others pass through. -/
def repPenAux (p : ℚ) (hist : List ℕ) : ℕ → List ℚ → List ℚ
  | _, [] => []
  | i, s :: rest =>
      (if i ∈ hist then (if s < 0 then s * p else s / p) else s) :: repPenAux p hist (i + 1) rest

/-- `transformers.RepetitionPenaltyLogitsProcessor` applied to one logits row with
the session's full `output_ids` as history (llm.py lines 69–73 pass
`self.output_ids` when the penalty is configured): gather the scores at the
history's token ids, scale each by the penalty (multiply if negative, divide
otherwise), scatter back. -/
def repetitionPenaltyProcess (p : ℚ) (hist : List ℕ) (scores : List ℚ) : List ℚ :=
  repPenAux p hist 0 scores

/-- The external top-p and top-k warpers (`transformers.TopPLogitsWarper`,
`transformers.TopKLogitsWarper`). Out of scope per spec §1; kept as opaque-from-
the-model function parameters applied at the position the processor list puts
them. -/
structure Warpers where
  topP : ℚ → List ℚ → List ℚ
  topK : ℤ → List ℚ → List ℚ

/-- Interpretation of one processor on a logits row. -/
def applyProc (W : Warpers) (cfg : SamplingConfig) (hist : List ℕ) : Proc → List ℚ → List ℚ
  | Proc.temp, s => temperatureWarp cfg.temperature s
  | Proc.repPen, s => repetitionPenaltyProcess cfg.repetition_penalty hist s
  | Proc.topP, s => W.topP cfg.top_p s
  | Proc.topK, s => W.topK cfg.top_k s

/-- `self.logits_processor(t, logits[-1].unsqueeze(0))[0]` (llm.py line 73): apply
the processor list, in list order, to the logits row (an empty list leaves the
row unchanged, matching the `if self.logits_processor:` guard). -/
def processLogits (W : Warpers) (cfg : SamplingConfig) (hist : List ℕ) (scores : List ℚ) :
    List ℚ :=
  (logitsProcessorList cfg).foldl (fun s pr => applyProc W cfg hist pr s) scores

/-- Modelled from the spec's words (claim C4 / spec §4.1): the processor order the
spec asserts — "(1) repetition penalty over the full history if configured,
(2) temperature scaling, (3) top-p filtering, (4) top-k filtering" — with the
same activation guards as the code. Compared with `logitsProcessorList`. -/
def specLogitsProcessorList (cfg : SamplingConfig) : List Proc :=
  (if 1 < cfg.repetition_penalty then [Proc.repPen] else [])
    ++ (if 0 < cfg.temperature ∧ cfg.temperature ≠ 1 then [Proc.temp] else [])
    ++ (if 0 < cfg.top_p ∧ cfg.top_p < 1 then [Proc.topP] else [])
    ++ (if 0 < cfg.top_k then [Proc.topK] else [])

/-- The spec-order pipeline, for comparison with `processLogits`. -/
def specProcessLogits (W : Warpers) (cfg : SamplingConfig) (hist : List ℕ) (scores : List ℚ) :
    List ℚ :=
  (specLogitsProcessorList cfg).foldl (fun s pr => applyProc W cfg hist pr s) scores

/-- Index of the greatest score, first occurrence winning ties — the top-1 entry of
`torch.topk(last_token_logits, 2)` (llm.py line 78). `i` is the index of the next
list entry, `best`/`bv` the best index and value so far. -/
def argmaxAux : ℕ → ℕ → ℚ → List ℚ → ℕ
  | _, best, _, [] => best
  | i, best, bv, s :: rest =>
      if bv < s then argmaxAux (i + 1) i s rest else argmaxAux (i + 1) best bv rest

/-- Arg-max index of a logits row (0 on an empty row, which the code never sees). -/
def argmaxIdx : List ℚ → ℕ
  | [] => 0
  | s :: rest => argmaxAux 1 0 s rest

/-- `TextGeneration.get_next_token_id` (llm.py lines 67–83) as a function of the
sampling configuration and token history: process the logits row, then — if
`temperature <= 0 or top_p <= 0` — take the arg-max (greedy, top-1 of
`torch.topk`), otherwise draw from the softmax distribution via
`torch.multinomial`, abstracted as the external `sample` function (it consumes
the processed row and the hidden RNG state). -/
def getNextTokenId (W : Warpers) (sample : List ℚ → ℕ) (cfg : SamplingConfig)
    (hist : List ℕ) (logits : List ℚ) : ℕ :=
  let processed := processLogits W cfg hist logits
  if cfg.temperature ≤ 0 ∨ cfg.top_p ≤ 0 then argmaxIdx processed
  else sample processed

/-- Per-session state of `TextGeneration` (llm.py lines 22–65): token history
`output_ids` (prompt then generated tokens, append-only), the immutable prompt
length, the session's KV-cache slot logical length (`KvCache(kvpool, prompt_len)`
allocates `prompt_len` positions; `acquire_one` adds one), the adapter id, and
the two incremental-detokenization cursors (both start at 0, llm.py lines 64–65). -/
structure TextGeneration where
  cfg : SamplingConfig
  output_ids : List ℕ
  prompt_len : ℕ
  cacheLen : ℕ
  lora_id : String
  prefix_offset : ℕ
  read_offset : ℕ

/-- `TextGeneration.__init__` (llm.py lines 23–65): record the sampling fields,
copy the prompt into `output_ids`, allocate a cache slot sized to the prompt
length, and zero both decode cursors. No validation of any kind is performed. -/
def TextGeneration.create (input_ids : List ℕ) (lora_id : String) (cfg : SamplingConfig) :
    TextGeneration where
  cfg := cfg
  output_ids := input_ids
  prompt_len := input_ids.length
  cacheLen := input_ids.length
  lora_id := lora_id
  prefix_offset := 0
  read_offset := 0

/-- `TextGeneration.append_token` (llm.py lines 85–86). -/
def TextGeneration.appendToken (s : TextGeneration) (token_id : ℕ) : TextGeneration :=
  { s with output_ids := s.output_ids ++ [token_id] }

/-- `TextGeneration.is_stop` (llm.py lines 88–93): length reached `maxlen`, or the
last token is the stop token. The code indexes `output_ids[-1]`, defined only for
a non-empty history; `getLast?` models that access. -/
def TextGeneration.is_stop (s : TextGeneration) : Bool :=
  if s.cfg.maxlen ≤ s.output_ids.length then true
  else if s.output_ids.getLast? = some s.cfg.stop_token_id then true
  else false

/-- `TextGeneration.is_prefill` (llm.py lines 95–96). -/
def TextGeneration.is_prefill (s : TextGeneration) : Bool :=
  decide (s.output_ids.length = s.prompt_len)

/-- Python list slice `l[a:b]` for `0 ≤ a ≤ b` (clamped at the list's end). -/
def pySlice (l : List ℕ) (a b : ℕ) : List ℕ :=
  (l.drop a).take (b - a)

/-- The Unicode replacement character, the undecodable-tail marker checked by
`new_text.endswith("�")`. -/
def replacementChar : Char := '�'

/-- `TextGeneration.decode_tokens` (llm.py lines 98–113) over the external
detokenizer `d`: decode `output_ids[prefix_offset:read_offset]` and
`output_ids[prefix_offset:]`; if the latter is strictly longer and does not end
in the replacement character, return the delta and advance both cursors
(`prefix_offset := read_offset`, `read_offset := len(output_ids)`), else return
empty text and leave the state unchanged. A Python single-character `endswith`
is "last code point equals that character". -/
def TextGeneration.decode_tokens (d : List ℕ → List Char) (s : TextGeneration) :
    TextGeneration × List Char :=
  let prefix_text := d (pySlice s.output_ids s.prefix_offset s.read_offset)
  let new_text := d (s.output_ids.drop s.prefix_offset)
  if prefix_text.length < new_text.length ∧ new_text.getLast? ≠ some replacementChar then
    ({ s with prefix_offset := s.read_offset, read_offset := s.output_ids.length },
      new_text.drop prefix_text.length)
  else
    (s, [])

/-- Strict lexicographic order on code-point sequences: Python's `<` on `str`.
Equal heads recurse; otherwise the head comparison decides; a proper prefix is
smaller. -/
def clLt : List Char → List Char → Bool
  | [], [] => false
  | [], _ :: _ => true
  | _ :: _, [] => false
  | a :: as, b :: bs => if a = b then clLt as bs else decide (a < b)

/-- Python `a < b` on strings (code-point lexicographic). -/
def strLt (a b : String) : Bool :=
  clLt a.data b.data

/-- Non-strict string order, as the merge-sort comparison: `a ≤ b ↔ ¬ b < a`. -/
def strLe (a b : String) : Bool :=
  !(strLt b a)

/-- Lexicographic comparison of the sort keys `(not is_prefill(), lora_id)`
(llm.py line 223): `False` sorts before `True`, ties broken by the adapter id. -/
def keyLe (a b : Bool × String) : Bool :=
  if a.1 = b.1 then strLe a.2 b.2 else (!a.1 && b.1)

/-- A live-session map entry: key `(model_name, lora_or_base)` with its session. -/
abbrev ReqEntry := (String × String) × TextGeneration

/-- The sort key of llm.py line 223 for one `reqctx` entry. -/
def reqSortLe (a b : ReqEntry) : Bool :=
  keyLe (!a.2.is_prefill, a.2.lora_id) (!b.2.is_prefill, b.2.lora_id)

/-- `sorted(self.reqctx.items(), key=...)` (llm.py lines 221–224): Python's stable
sort of the live-session entries by `(not is_prefill(), lora_id)`. -/
def sortStep (entries : List ReqEntry) : List ReqEntry :=
  entries.mergeSort reqSortLe

/-- Helper for `loraRuns`: `cur`/`n` are the adapter id and length of the run
currently being extended (the code's `lora_ids[-1]` / `lora_lens[-1]`); a session
with the same adapter id extends it, any other id closes it and starts a new run
of length 1 (llm.py lines 239–243). -/
def runsAux {α : Type} [DecidableEq α] (cur : α) (n : ℕ) : List α → List (α × ℕ)
  | [] => [(cur, n)]
  | x :: rest => if x = cur then runsAux cur (n + 1) rest else (cur, n) :: runsAux x 1 rest

/-- The `(lora_ids, lora_lens)` contiguous-run list built while gathering the
batch (llm.py lines 239–243), as `(adapter id, run length)` pairs in batch
order. -/
def loraRuns {α : Type} [DecidableEq α] : List α → List (α × ℕ)
  | [] => []
  | x :: rest => runsAux x 1 rest

/-- `prefill_input_ids` (llm.py lines 231–233): the concatenated full token
histories of the prefill-phase sessions, in batch order. -/
def prefillInputIds (ordered : List TextGeneration) : List ℕ :=
  (ordered.filter (fun s => s.is_prefill)).flatMap (fun s => s.output_ids)

/-- `decode_input_ids` (llm.py line 236): one row — the last history token — per
decode-phase session, in batch order. -/
def decodeInputIds (ordered : List TextGeneration) : List ℕ :=
  (ordered.filter (fun s => !s.is_prefill)).map (fun s => s.output_ids.getLastD 0)

/-- The per-session row count of the formed batch: a prefill session contributes
its whole history (= its prompt), a decode session one row. -/
def rowCount (s : TextGeneration) : ℕ :=
  if s.is_prefill then s.output_ids.length else 1

/-- The hard-coded sampling configuration every new request gets
(llm.py lines 193–198, with `maxlen = 1024` from line 128 and the tokenizer's
`eos_token_id` as stop token). -/
def multiLoraCfg (eos : ℕ) : SamplingConfig where
  temperature := 9 / 10
  repetition_penalty := 11 / 10
  top_p := 9 / 10
  top_k := -1
  maxlen := 1024
  stop_token_id := eos

/-- One `LoraSpec`'s two prompt queues (llm.py lines 116–120), with the external
`tokenizer.encode` already applied: each prompt is a token-id list. -/
structure LoraSpecM where
  lora_prompts : List (List ℕ)
  base_prompts : List (List ℕ)

/-- The scheduler state the recycling path touches (llm.py `MultiLora`):
the live-session map `reqctx` (a Python dict — insertion-ordered association
list), the per-key consumed-prompt counters `req_counter`, and the
active-session counter `counter`. -/
structure SchedState where
  reqctx : List ReqEntry
  req_counter : String × String → ℕ
  counter : ℤ

/-- Python `dict` lookup. -/
def assocFind? (l : List ReqEntry) (k : String × String) : Option TextGeneration :=
  match l with
  | [] => none
  | (k2, v) :: rest => if k2 = k then some v else assocFind? rest k

/-- Python `del dict[k]`: drop the key's entry, keeping the others in order. -/
def assocErase (l : List ReqEntry) (k : String × String) : List ReqEntry :=
  match l with
  | [] => []
  | (k2, v) :: rest => if k2 = k then rest else (k2, v) :: assocErase rest k

/-- Python `dict[k] = v`: replace in place when present, else append at the end. -/
def assocSet (l : List ReqEntry) (k : String × String) (v : TextGeneration) : List ReqEntry :=
  match l with
  | [] => [(k, v)]
  | (k2, v2) :: rest => if k2 = k then (k, v) :: rest else (k2, v2) :: assocSet rest k v

/-- `MultiLora._create_request` (llm.py lines 174–200): pick the key's prompt
queue and adapter id (`model_name` for "lora", the reserved "empty" adapter for
"base", `ValueError` otherwise); if the queue is exhausted, decrement `counter`
and return without touching `reqctx`; otherwise consume the next prompt, bump
the key's `req_counter`, and insert a fresh `TextGeneration` under the key. -/
def createRequest (specs : String → LoraSpecM) (eos : ℕ) (st : SchedState)
    (mn lb : String) : Except String SchedState :=
  if lb = "lora" ∨ lb = "base" then
    let ps := if lb = "lora" then (specs mn).lora_prompts else (specs mn).base_prompts
    let lora_id := if lb = "lora" then mn else "empty"
    let idx := st.req_counter (mn, lb)
    if ps.length ≤ idx then
      Except.ok { st with counter := st.counter - 1 }
    else
      Except.ok { st with
        req_counter := fun k => if k = (mn, lb) then idx + 1 else st.req_counter k,
        reqctx := assocSet st.reqctx (mn, lb)
          (TextGeneration.create (ps.getD idx []) lora_id (multiLoraCfg eos)) }
  else Except.error "ValueError"

/-- The recycling branch of the step loop for one finished session (llm.py
lines 271–278, taken when `is_stop()` holds): `_delete_request` (release the
cache slot, remove the key), `_create_request`, and then the unguarded
`self.reqctx[(model_name, lora_or_base)].decode_tokens()` of line 277 — a dict
access that raises `KeyError` when `_create_request` found the queue exhausted
and re-inserted nothing. Output-sink emissions (`append_box`) are external and
not modelled; the line-277 access and its cursor mutation are. -/
def recycleFinished (specs : String → LoraSpecM) (eos : ℕ) (d : List ℕ → List Char)
    (st : SchedState) (mn lb : String) : Except String SchedState := do
  let st1 : SchedState := { st with reqctx := assocErase st.reqctx (mn, lb) }
  let st2 ← createRequest specs eos st1 mn lb
  match assocFind? st2.reqctx (mn, lb) with
  | some s =>
      Except.ok { st2 with reqctx := assocSet st2.reqctx (mn, lb) (s.decode_tokens d).1 }
  | none => Except.error "KeyError"

/-- The cache-slot extension a decode-phase session receives while the batch is
gathered (`reqctx.kvcache.acquire_one()`, llm.py line 238); prefill sessions
keep their prompt-sized slot. -/
def extendForStep (s : TextGeneration) : TextGeneration :=
  if s.is_prefill then s else { s with cacheLen := s.cacheLen + 1 }

/-- One scheduler step as seen by a single surviving session: the gather-phase
cache extension (decode only, llm.py line 238), then the postprocess append of
the chosen token and the incremental flush (llm.py lines 268–270). -/
def stepSession (d : List ℕ → List Char) (s : TextGeneration) (tok : ℕ) : TextGeneration :=
  (((extendForStep s).appendToken tok).decode_tokens d).1

/-- The cache/history relation the code maintains: the history never shrinks
below the prompt, a prefill-phase slot holds exactly the prompt, and a
decode-phase slot trails the history by exactly the one token whose key/value
entries are not yet computed. -/
def CacheInv (s : TextGeneration) : Prop :=
  s.prompt_len ≤ s.output_ids.length
    ∧ (s.is_prefill = true → s.cacheLen = s.output_ids.length)
    ∧ (s.is_prefill = false → s.cacheLen + 1 = s.output_ids.length)

/-- The decode-cursor invariant of claim C8. -/
def TgInv (s : TextGeneration) : Prop :=
  s.prefix_offset ≤ s.read_offset ∧ s.read_offset ≤ s.output_ids.length

/-- Modelled from the spec (claim C5 / spec §4.1): the validation the spec says
session creation performs — `max_length > len(prompt_tokens)`, `temperature ≥ 0`,
`top_p ∈ (0, 1]`, `top_k ≥ 0` or the `-1` sentinel. `false` means the spec
demands a `ConfigError`. The code has no counterpart (no validation exists in
`TextGeneration.__init__`). -/
def specConfigValid (cfg : SamplingConfig) (promptLen : ℕ) : Bool :=
  decide (promptLen < cfg.maxlen) && decide (0 ≤ cfg.temperature)
    && decide (0 < cfg.top_p) && decide (cfg.top_p ≤ 1)
    && (decide (0 ≤ cfg.top_k) || decide (cfg.top_k = -1))

/-- A sampling configuration the spec (§4.1) declares invalid: `max_length = 1`
cannot exceed a two-token prompt. All numeric fields are integral so that kernel
evaluation is cheap. -/
def badCfg : SamplingConfig where
  temperature := 1
  repetition_penalty := 1
  top_p := 1
  top_k := 0
  maxlen := 1
  stop_token_id := 2

/-- A detokenizer mapping every token to the letter `a` (deterministic and
stateless, one character per token, never emitting the replacement character). -/
def dOneChar : List ℕ → List Char :=
  fun l => l.map (fun _ => 'a')

/-- A detokenizer that always returns empty text. -/
def dEmpty : List ℕ → List Char :=
  fun _ => []

/-- Python slice `l[a:len(l)]` is `l.drop a`. -/
theorem pySlice_read_full (l : List ℕ) (p : ℕ) : pySlice l p l.length = l.drop p := by
  unfold pySlice
  rw [← List.length_drop]
  exact List.take_length _

/-- A flush on a session whose `read_offset` already points at the end of the
history compares a slice with itself, so it returns empty text and leaves the
session unchanged. -/
theorem flush_of_read_full (d : List ℕ → List Char) (s : TextGeneration)
    (h : s.read_offset = s.output_ids.length) : s.decode_tokens d = (s, []) := by
  unfold TextGeneration.decode_tokens
  rw [h, pySlice_read_full]
  simp

/-- C6: for every session state and every deterministic, stateless detokenizer,
a second `decode_tokens` call with no intervening `append` returns empty text —
and leaves the session state unchanged, so every later call without an `append`
also returns empty. -/
theorem C6_flush_idempotent (d : List ℕ → List Char) (s : TextGeneration) :
    (((s.decode_tokens d).1).decode_tokens d).2 = []
    ∧ (((s.decode_tokens d).1).decode_tokens d).1 = (s.decode_tokens d).1 := by
  by_cases h :
      (d (pySlice s.output_ids s.prefix_offset s.read_offset)).length
          < (d (s.output_ids.drop s.prefix_offset)).length
        ∧ (d (s.output_ids.drop s.prefix_offset)).getLast? ≠ some replacementChar
  · have h1 : (s.decode_tokens d).1 =
        { s with prefix_offset := s.read_offset, read_offset := s.output_ids.length } := by
      unfold TextGeneration.decode_tokens
      rw [if_pos h]
    rw [h1, flush_of_read_full d _ rfl]
    exact ⟨rfl, rfl⟩
  · have h1 : s.decode_tokens d = (s, []) := by
      unfold TextGeneration.decode_tokens
      rw [if_neg h]
    simp [h1]

/-- C8: session creation establishes `prefix_offset ≤ read_offset ≤ len(history)`
(with `0 ≤ prefix_offset` for free over `ℕ`), and the two state-mutating
operations — `append_token` and `decode_tokens` — preserve it and never decrease
either cursor. The remaining operations (`get_next_token_id`, `is_stop`,
`is_prefill`) are modelled as pure functions of the state: they mutate nothing. -/
theorem C8_offsets_invariant :
    (∀ (input : List ℕ) (lora : String) (cfg : SamplingConfig),
        TgInv (TextGeneration.create input lora cfg))
    ∧ (∀ (s : TextGeneration) (tok : ℕ), TgInv s →
        TgInv (s.appendToken tok)
        ∧ (s.appendToken tok).prefix_offset = s.prefix_offset
        ∧ (s.appendToken tok).read_offset = s.read_offset)
    ∧ (∀ (d : List ℕ → List Char) (s : TextGeneration), TgInv s →
        TgInv (s.decode_tokens d).1
        ∧ s.prefix_offset ≤ (s.decode_tokens d).1.prefix_offset
        ∧ s.read_offset ≤ (s.decode_tokens d).1.read_offset) := by
  refine ⟨fun input lora cfg => ⟨Nat.le_refl 0, Nat.zero_le _⟩, ?_, ?_⟩
  · intro s tok h
    have h2 := h.2
    refine ⟨⟨h.1, ?_⟩, rfl, rfl⟩
    simp only [TextGeneration.appendToken, List.length_append, List.length_cons,
      List.length_nil]
    omega
  · intro d s h
    by_cases hc :
        (d (pySlice s.output_ids s.prefix_offset s.read_offset)).length
            < (d (s.output_ids.drop s.prefix_offset)).length
          ∧ (d (s.output_ids.drop s.prefix_offset)).getLast? ≠ some replacementChar
    · have h1 : (s.decode_tokens d).1 =
          { s with prefix_offset := s.read_offset, read_offset := s.output_ids.length } := by
        unfold TextGeneration.decode_tokens
        rw [if_pos hc]
      rw [h1]
      exact ⟨⟨h.2, Nat.le_refl _⟩, h.1, h.2⟩
    · have h1 : s.decode_tokens d = (s, []) := by
        unfold TextGeneration.decode_tokens
        rw [if_neg hc]
      rw [h1]
      exact ⟨h, Nat.le_refl _, Nat.le_refl _⟩

/-- Witness for C8 at a concrete session: the invariant holds after creation and
is preserved by an `append_token`. -/
theorem C8_offsets_invariant_witness :
    TgInv ((TextGeneration.create [1, 2] "a" (multiLoraCfg 2)).appendToken 7) :=
  (C8_offsets_invariant.2.1 (TextGeneration.create [1, 2] "a" (multiLoraCfg 2)) 7
    ⟨Nat.le_refl 0, Nat.zero_le _⟩).1

/-- C5 counterexample: with `max_length = 1` and the two-token prompt `[5, 6]`
the spec demands a `ConfigError` and no session, but `TextGeneration.__init__`
performs no validation: a session is created with the prompt as history and a
cache slot of the prompt's size is allocated. -/
theorem C5_counterexample :
    specConfigValid badCfg ([5, 6] : List ℕ).length = false
    ∧ (TextGeneration.create [5, 6] "a" badCfg).output_ids = [5, 6]
    ∧ (TextGeneration.create [5, 6] "a" badCfg).cacheLen = 2 := by
  refine ⟨by decide, rfl, rfl⟩

/-- C5 amended: session creation never fails and validates nothing — every
configuration yields a session holding the prompt, with a cache slot sized to
the prompt; a configuration with `max_length ≤ len(prompt_tokens)` is absorbed
downstream instead, making the session terminal at its very first stop check. -/
theorem C5_create_never_fails (input : List ℕ) (lora : String) (cfg : SamplingConfig) :
    (TextGeneration.create input lora cfg).output_ids = input
    ∧ (TextGeneration.create input lora cfg).cacheLen = input.length
    ∧ (cfg.maxlen ≤ input.length → (TextGeneration.create input lora cfg).is_stop = true) := by
  refine ⟨rfl, rfl, fun h => ?_⟩
  unfold TextGeneration.is_stop
  have h2 : (TextGeneration.create input lora cfg).cfg.maxlen
      ≤ (TextGeneration.create input lora cfg).output_ids.length := h
  rw [if_pos h2]

/-- Witness for C5 at the invalid configuration of the counterexample. -/
theorem C5_create_never_fails_witness :
    badCfg.maxlen ≤ ([5, 6] : List ℕ).length
    ∧ (TextGeneration.create [5, 6] "a" badCfg).is_stop = true :=
  ⟨by decide, (C5_create_never_fails [5, 6] "a" badCfg).2.2 (by decide)⟩

/-- C10: a freshly created session has `prefix_offset = read_offset = 0`, so its
first non-empty flush returns the decoding of the entire history — which at that
point is exactly the prompt — minus the decoding of the empty slice: the prompt
text itself is emitted as output (and indeed `MultiLora.run` flushes every fresh
session to the output sink before the first step, llm.py lines 216–217). -/
theorem C10_prompt_text_flushed (input : List ℕ) (lora : String) (cfg : SamplingConfig)
    (d : List ℕ → List Char) :
    (TextGeneration.create input lora cfg).prefix_offset = 0
    ∧ (TextGeneration.create input lora cfg).read_offset = 0
    ∧ (((TextGeneration.create input lora cfg).decode_tokens d).2 ≠ [] →
        ((TextGeneration.create input lora cfg).decode_tokens d).2
          = (d input).drop (d []).length) := by
  refine ⟨rfl, rfl, fun h => ?_⟩
  by_cases hc :
      (d (pySlice (TextGeneration.create input lora cfg).output_ids
            (TextGeneration.create input lora cfg).prefix_offset
            (TextGeneration.create input lora cfg).read_offset)).length
          < (d ((TextGeneration.create input lora cfg).output_ids.drop
              (TextGeneration.create input lora cfg).prefix_offset)).length
        ∧ (d ((TextGeneration.create input lora cfg).output_ids.drop
              (TextGeneration.create input lora cfg).prefix_offset)).getLast?
            ≠ some replacementChar
  · have h1 : ((TextGeneration.create input lora cfg).decode_tokens d).2
        = (d ((TextGeneration.create input lora cfg).output_ids.drop
            (TextGeneration.create input lora cfg).prefix_offset)).drop
          (d (pySlice (TextGeneration.create input lora cfg).output_ids
            (TextGeneration.create input lora cfg).prefix_offset
            (TextGeneration.create input lora cfg).read_offset)).length := by
      unfold TextGeneration.decode_tokens
      rw [if_pos hc]
    rw [h1]
    rfl
  · have h1 : (TextGeneration.create input lora cfg).decode_tokens d
        = (TextGeneration.create input lora cfg, []) := by
      unfold TextGeneration.decode_tokens
      rw [if_neg hc]
    exact absurd (congrArg Prod.snd h1) h

/-- Witness for C10: with the one-letter-per-token detokenizer the first flush of
a fresh one-token session is non-empty, and it equals the decoded prompt. -/
theorem C10_prompt_text_flushed_witness :
    ((TextGeneration.create [1] "x" (multiLoraCfg 2)).decode_tokens dOneChar).2 ≠ []
    ∧ ((TextGeneration.create [1] "x" (multiLoraCfg 2)).decode_tokens dOneChar).2
        = (dOneChar [1]).drop (dOneChar []).length :=
  ⟨by decide,
    (C10_prompt_text_flushed [1] "x" (multiLoraCfg 2) dOneChar).2.2 (by decide)⟩

/-- Scaling by a positive temperature preserves the sign of every score, so the
temperature warper and the repetition-penalty processor commute. -/
theorem repPenAux_temperatureWarp_comm (p t : ℚ) (ht : 0 < t) (hist : List ℕ) :
    ∀ (i : ℕ) (s : List ℚ),
      repPenAux p hist i (temperatureWarp t s) = temperatureWarp t (repPenAux p hist i s) := by
  intro i s
  induction s generalizing i with
  | nil => rfl
  | cons a rest ih =>
    simp only [temperatureWarp, List.map_cons, repPenAux] at ih ⊢
    rw [ih (i + 1)]
    congr 1
    by_cases hm : i ∈ hist
    · rw [if_pos hm, if_pos hm]
      by_cases ha : a < 0
      · rw [if_pos ha, if_pos (div_neg_of_neg_of_pos ha ht), div_mul_eq_mul_div]
      · rw [if_neg ha, if_neg (not_lt.mpr (div_nonneg (not_lt.mp ha) ht.le)),
          div_right_comm]
    · rw [if_neg hm, if_neg hm]

/-- C4: the logits pipeline the code runs equals, on every input, the pipeline in
the order the spec states — repetition penalty (over the full history, when
configured), then temperature scaling, then top-p, then top-k — and only after
the whole pipeline does `get_next_token_id` take the arg-max or draw a sample.
The code appends the temperature warper before the repetition penalty
(llm.py lines 46–53), but a positive-temperature scaling preserves signs and the
two transforms commute, so the processed row is identical. -/
theorem C4_processor_order (W : Warpers) (sample : List ℚ → ℕ) (cfg : SamplingConfig)
    (hist : List ℕ) (scores : List ℚ) :
    processLogits W cfg hist scores = specProcessLogits W cfg hist scores
    ∧ getNextTokenId W sample cfg hist scores
        = (if cfg.temperature ≤ 0 ∨ cfg.top_p ≤ 0
            then argmaxIdx (specProcessLogits W cfg hist scores)
            else sample (specProcessLogits W cfg hist scores)) := by
  have hmain : processLogits W cfg hist scores = specProcessLogits W cfg hist scores := by
    unfold processLogits specProcessLogits logitsProcessorList specLogitsProcessorList
    by_cases ht : 0 < cfg.temperature ∧ cfg.temperature ≠ 1
    · by_cases hr : 1 < cfg.repetition_penalty
      · rw [if_pos ht, if_pos hr]
        simp only [List.cons_append, List.nil_append, List.foldl_cons]
        rw [show applyProc W cfg hist Proc.repPen (applyProc W cfg hist Proc.temp scores)
              = applyProc W cfg hist Proc.temp (applyProc W cfg hist Proc.repPen scores) from by
          simp only [applyProc, repetitionPenaltyProcess]
          exact repPenAux_temperatureWarp_comm cfg.repetition_penalty cfg.temperature ht.1
            hist 0 scores]
      · rw [if_pos ht, if_neg hr]
        simp only [List.append_nil, List.nil_append]
    · by_cases hr : 1 < cfg.repetition_penalty
      · rw [if_neg ht, if_pos hr]
        simp only [List.append_nil, List.nil_append]
      · rw [if_neg ht, if_neg hr]
  refine ⟨hmain, ?_⟩
  unfold getNextTokenId
  rw [hmain]

/-- A configuration with `temperature = 0` (and every non-trivial warper guard
off; all fields integral so that kernel evaluation is cheap). -/
def cfgGreedy : SamplingConfig where
  temperature := 0
  repetition_penalty := 1
  top_p := 2
  top_k := -1
  maxlen := 10
  stop_token_id := 0

/-- Identity stand-ins for the external top-p/top-k warpers, for concrete
evaluation in witnesses. -/
def idWarpers : Warpers where
  topP := fun _ s => s
  topK := fun _ s => s

/-- C7: with `temperature = 0`, `get_next_token_id` takes the
`temperature <= 0 or top_p <= 0` branch, so it returns the arg-max of the
processed logits row, and its result does not depend on the sampler (the only
source of randomness): repeated calls on a fixed row give the same token id. -/
theorem C7_temperature_zero_greedy (W : Warpers) (sample1 sample2 : List ℚ → ℕ)
    (cfg : SamplingConfig) (hist : List ℕ) (logits : List ℚ)
    (h : cfg.temperature = 0) :
    getNextTokenId W sample1 cfg hist logits = argmaxIdx (processLogits W cfg hist logits)
    ∧ getNextTokenId W sample1 cfg hist logits = getNextTokenId W sample2 cfg hist logits := by
  have hc : cfg.temperature ≤ 0 ∨ cfg.top_p ≤ 0 := Or.inl (le_of_eq h)
  constructor
  · unfold getNextTokenId
    rw [if_pos hc]
  · unfold getNextTokenId
    rw [if_pos hc, if_pos hc]

/-- Witness for C7 at a concrete zero-temperature configuration, logits row and
two different samplers. -/
theorem C7_temperature_zero_greedy_witness :
    cfgGreedy.temperature = 0
    ∧ getNextTokenId idWarpers (fun _ => 5) cfgGreedy [0] [1, 3, 2]
        = argmaxIdx (processLogits idWarpers cfgGreedy [0] [1, 3, 2])
    ∧ getNextTokenId idWarpers (fun _ => 5) cfgGreedy [0] [1, 3, 2]
        = getNextTokenId idWarpers (fun _ => 9) cfgGreedy [0] [1, 3, 2] :=
  ⟨rfl,
    (C7_temperature_zero_greedy idWarpers (fun _ => 5) (fun _ => 9) cfgGreedy [0] [1, 3, 2]
      rfl).1,
    (C7_temperature_zero_greedy idWarpers (fun _ => 5) (fun _ => 9) cfgGreedy [0] [1, 3, 2]
      rfl).2⟩

/-- Strict lexicographic order on code-point lists is transitive. -/
theorem clLt_trans : ∀ a b c : List Char, clLt a b = true → clLt b c = true → clLt a c = true
  | [], [], _, h1, _ => by simp [clLt] at h1
  | [], _ :: _, [], _, h2 => by simp [clLt] at h2
  | [], _ :: _, _ :: _, _, _ => rfl
  | _ :: _, [], _, h1, _ => by simp [clLt] at h1
  | _ :: _, _ :: _, [], _, h2 => by simp [clLt] at h2
  | x :: xs, y :: ys, z :: zs, h1, h2 => by
    simp only [clLt] at h1 h2 ⊢
    rcases eq_or_ne x y with rfl | hxy
    · rw [if_pos rfl] at h1
      rcases eq_or_ne x z with rfl | hxz
      · rw [if_pos rfl] at h2 ⊢
        exact clLt_trans xs ys zs h1 h2
      · rw [if_neg hxz] at h2 ⊢
        exact h2
    · rw [if_neg hxy] at h1
      rcases eq_or_ne y z with rfl | hyz
      · rw [if_neg hxy]
        exact h1
      · rw [if_neg hyz] at h2
        have hxz : x < z := lt_trans (of_decide_eq_true h1) (of_decide_eq_true h2)
        have hne : x ≠ z := fun he => absurd (he ▸ hxz) (lt_irrefl z)
        rw [if_neg hne]
        exact decide_eq_true hxz

/-- Strict lexicographic order on code-point lists is asymmetric. -/
theorem clLt_asymm : ∀ a b : List Char, clLt a b = true → clLt b a = false
  | [], [], h => by simp [clLt] at h
  | [], _ :: _, _ => rfl
  | _ :: _, [], h => by simp [clLt] at h
  | x :: xs, y :: ys, h => by
    simp only [clLt] at h ⊢
    rcases eq_or_ne x y with rfl | hxy
    · rw [if_pos rfl] at h ⊢
      exact clLt_asymm xs ys h
    · rw [if_neg hxy] at h
      rw [if_neg (Ne.symm hxy)]
      exact decide_eq_false (asymm (of_decide_eq_true h))

/-- Two code-point lists neither of which is lexicographically below the other
are equal. -/
theorem clLt_connex : ∀ a b : List Char, clLt a b = false → clLt b a = false → a = b
  | [], [], _, _ => rfl
  | [], _ :: _, h, _ => by simp [clLt] at h
  | _ :: _, [], _, h => by simp [clLt] at h
  | x :: xs, y :: ys, h1, h2 => by
    simp only [clLt] at h1 h2
    rcases eq_or_ne x y with rfl | hxy
    · rw [if_pos rfl] at h1
      rw [if_pos rfl] at h2
      rw [clLt_connex xs ys h1 h2]
    · rw [if_neg hxy] at h1
      rw [if_neg (Ne.symm hxy)] at h2
      exact absurd (le_antisymm (not_lt.mp (of_decide_eq_false h2))
        (not_lt.mp (of_decide_eq_false h1))) hxy

/-- The string comparison is total. -/
theorem strLe_total (a b : String) : (strLe a b || strLe b a) = true := by
  unfold strLe strLt
  rcases Bool.eq_false_or_eq_true (clLt b.data a.data) with h | h
  · rw [h, clLt_asymm b.data a.data h]
    rfl
  · rw [h]
    rfl

/-- Absence of lexicographic descent is transitive. -/
theorem clLt_false_trans (a b c : List Char) (h1 : clLt b a = false) (h2 : clLt c b = false) :
    clLt c a = false := by
  rcases Bool.eq_false_or_eq_true (clLt c a) with h | h
  · exfalso
    rcases Bool.eq_false_or_eq_true (clLt b c) with hbc | hbc
    · have hba := clLt_trans b c a hbc h
      rw [h1] at hba
      exact Bool.false_ne_true hba
    · have hcb : c = b := clLt_connex c b h2 hbc
      rw [hcb] at h
      rw [h1] at h
      exact Bool.false_ne_true h
  · exact h

/-- The string comparison is transitive. -/
theorem strLe_trans (a b c : String) (h1 : strLe a b = true) (h2 : strLe b c = true) :
    strLe a c = true := by
  unfold strLe strLt at h1 h2 ⊢
  rw [Bool.not_eq_true'] at h1 h2 ⊢
  exact clLt_false_trans a.data b.data c.data h1 h2

/-- The string comparison is antisymmetric. -/
theorem strLe_antisymm (a b : String) (h1 : strLe a b = true) (h2 : strLe b a = true) :
    a = b := by
  unfold strLe strLt at h1 h2
  rw [Bool.not_eq_true'] at h1 h2
  have hd := clLt_connex a.data b.data h2 h1
  cases a
  cases b
  exact congrArg String.mk hd

/-- The sort-key comparison is transitive. -/
theorem keyLe_trans (a b c : Bool × String) (h1 : keyLe a b = true) (h2 : keyLe b c = true) :
    keyLe a c = true := by
  obtain ⟨p1, s1⟩ := a
  obtain ⟨p2, s2⟩ := b
  obtain ⟨p3, s3⟩ := c
  cases p1 <;> cases p2 <;> cases p3 <;> simp [keyLe] at h1 h2 ⊢ <;>
    exact strLe_trans s1 s2 s3 h1 h2

/-- The sort-key comparison is total. -/
theorem keyLe_total (a b : Bool × String) : (keyLe a b || keyLe b a) = true := by
  obtain ⟨p1, s1⟩ := a
  obtain ⟨p2, s2⟩ := b
  have hst := strLe_total s1 s2
  cases p1 <;> cases p2 <;> simp [keyLe, Bool.or_eq_true] at hst ⊢ <;> tauto

/-- The entry comparison of llm.py line 223 is transitive. -/
theorem reqSortLe_trans (a b c : ReqEntry) (h1 : reqSortLe a b = true)
    (h2 : reqSortLe b c = true) : reqSortLe a c = true :=
  keyLe_trans _ _ _ h1 h2

/-- The entry comparison of llm.py line 223 is total. -/
theorem reqSortLe_total (a b : ReqEntry) : (reqSortLe a b || reqSortLe b a) = true :=
  keyLe_total _ _

/-- Sorting the live-session entries with `reqSortLe` yields a list that is
pairwise ordered by it. -/
theorem sortStep_sorted (entries : List ReqEntry) :
    (sortStep entries).Pairwise (fun a b => reqSortLe a b = true) :=
  List.sorted_mergeSort reqSortLe_trans reqSortLe_total entries

/-- The run lengths produced by `runsAux` sum to the carried run length plus the
number of remaining entries. -/
theorem runsAux_sum {α : Type} [DecidableEq α] (cur : α) (n : ℕ) (l : List α) :
    ((runsAux cur n l).map Prod.snd).sum = n + l.length := by
  induction l generalizing cur n with
  | nil => simp [runsAux]
  | cons x rest ih =>
    by_cases h : x = cur
    · rw [runsAux, if_pos h]
      rw [ih]
      simp only [List.length_cons]
      omega
    · rw [runsAux, if_neg h]
      simp only [List.map_cons, List.sum_cons, List.length_cons]
      rw [ih]
      omega

/-- The run lengths of a formed batch sum to the number of batch entries. -/
theorem loraRuns_sum {α : Type} [DecidableEq α] (l : List α) :
    ((loraRuns l).map Prod.snd).sum = l.length := by
  cases l with
  | nil => rfl
  | cons x rest =>
    rw [loraRuns, runsAux_sum]
    simp only [List.length_cons]
    omega

/-- Helper: drop one element below the head of a pairwise-ordered list. -/
theorem pairwise_cons_of_cons_cons {cur x : String} {rest : List String}
    (h : (cur :: x :: rest).Pairwise (fun a b => strLe a b = true)) :
    (cur :: rest).Pairwise (fun a b => strLe a b = true) := by
  rcases List.pairwise_cons.mp h with ⟨h1, h2⟩
  exact List.pairwise_cons.mpr
    ⟨fun b hb => h1 b (List.mem_cons_of_mem x hb), (List.pairwise_cons.mp h2).2⟩

/-- On a sorted id list every run id produced by `runsAux` is at or above the
carried id. -/
theorem runsAux_fst_le (cur : String) (n : ℕ) (l : List String)
    (h : (cur :: l).Pairwise (fun a b => strLe a b = true)) :
    ∀ y ∈ (runsAux cur n l).map Prod.fst, strLe cur y = true := by
  induction l generalizing cur n with
  | nil =>
    intro y hy
    simp only [runsAux, List.map_cons, List.map_nil, List.mem_singleton] at hy
    subst hy
    rcases Bool.eq_false_or_eq_true (strLe y y) with ht | hf
    · exact ht
    · have := strLe_total y y
      rw [hf] at this
      simp at this
  | cons x rest ih =>
    intro y hy
    by_cases hx : x = cur
    · rw [runsAux, if_pos hx] at hy
      exact ih cur (n + 1) (pairwise_cons_of_cons_cons h) y hy
    · rw [runsAux, if_neg hx] at hy
      simp only [List.map_cons, List.mem_cons] at hy
      have hcx : strLe cur x = true :=
        (List.pairwise_cons.mp h).1 x (List.mem_cons_self x rest)
      rcases hy with rfl | hy
      · rcases Bool.eq_false_or_eq_true (strLe y y) with ht | hf
        · exact ht
        · have := strLe_total y y
          rw [hf] at this
          simp at this
      · exact strLe_trans cur x y hcx
          (ih x 1 (List.pairwise_cons.mp h).2 y hy)

/-- On a sorted id list the run ids produced by `runsAux` are pairwise distinct. -/
theorem runsAux_fst_nodup (cur : String) (n : ℕ) (l : List String)
    (h : (cur :: l).Pairwise (fun a b => strLe a b = true)) :
    ((runsAux cur n l).map Prod.fst).Nodup := by
  induction l generalizing cur n with
  | nil => simp [runsAux]
  | cons x rest ih =>
    by_cases hx : x = cur
    · rw [runsAux, if_pos hx]
      exact ih cur (n + 1) (pairwise_cons_of_cons_cons h)
    · rw [runsAux, if_neg hx]
      simp only [List.map_cons, List.nodup_cons]
      have htail := (List.pairwise_cons.mp h).2
      refine ⟨fun hmem => ?_, ih x 1 htail⟩
      have hxc : strLe x cur = true := runsAux_fst_le x 1 rest htail cur hmem
      have hcx : strLe cur x = true :=
        (List.pairwise_cons.mp h).1 x (List.mem_cons_self x rest)
      exact hx (strLe_antisymm x cur hxc hcx)

/-- On a sorted id list the formed adapter runs have pairwise-distinct ids. -/
theorem loraRuns_fst_nodup (l : List String)
    (h : l.Pairwise (fun a b => strLe a b = true)) :
    ((loraRuns l).map Prod.fst).Nodup := by
  cases l with
  | nil => simp [loraRuns]
  | cons x rest => exact runsAux_fst_nodup x 1 rest h

/-- A prefill-phase session on the reserved "empty" adapter (a `base` request). -/
def prefillEmptyAdapter : TextGeneration :=
  TextGeneration.create [1] "empty" (multiLoraCfg 2)

/-- A prefill-phase session on the adapter of model "m" (a `lora` request). -/
def prefillMAdapter : TextGeneration :=
  TextGeneration.create [1] "m" (multiLoraCfg 2)

/-- A decode-phase session on the reserved "empty" adapter (one token past its
prompt, as after one completed step). -/
def decodeEmptyAdapter : TextGeneration :=
  (TextGeneration.create [1] "empty" (multiLoraCfg 2)).appendToken 5

/-- A live-session map with the "empty" adapter in both phases and the "m"
adapter between them in sort order: `m-base` and `n-base` both resolve to the
reserved adapter, one fresh (prefill) and one mid-stream (decode). -/
def entriesCx : List ReqEntry :=
  [(("m", "base"), prefillEmptyAdapter), (("m", "lora"), prefillMAdapter),
    (("n", "base"), decodeEmptyAdapter)]

/-- C2 counterexample: after sorting by `(not is_prefill(), lora_id)` the batch
order is `empty` (prefill), `m` (prefill), `empty` (decode), so the run-id
sequence is `empty, m, empty` — the adapter `empty` occupies two non-adjacent
runs and the contiguity claim fails. -/
theorem C2_counterexample :
    ¬ ((loraRuns (((sortStep entriesCx).map Prod.snd).map (fun s => s.lora_id))).map
        Prod.fst).Nodup := by
  have hs : sortStep entriesCx = entriesCx := List.mergeSort_of_sorted (by decide)
  rw [hs]
  decide

/-- C2 amended: the contiguity the sort key actually guarantees is per phase —
among the prefill-phase rows of a formed batch the adapter runs have pairwise
distinct ids, and likewise among the decode-phase rows; an adapter with live
sessions in both phases (only the shared "empty" adapter can have them) may
occupy one run in each part, as the counterexample shows. -/
theorem C2_adapter_contiguous_within_phase (entries : List ReqEntry) :
    ((loraRuns ((((sortStep entries).map Prod.snd).filter (fun s => s.is_prefill)).map
        (fun s => s.lora_id))).map Prod.fst).Nodup
    ∧ ((loraRuns ((((sortStep entries).map Prod.snd).filter (fun s => !s.is_prefill)).map
        (fun s => s.lora_id))).map Prod.fst).Nodup := by
  have hp : ((sortStep entries).map Prod.snd).Pairwise
      (fun a B : TextGeneration =>
        keyLe (!a.is_prefill, a.lora_id) (!B.is_prefill, B.lora_id) = true) :=
    List.pairwise_map.mpr (sortStep_sorted entries)
  constructor
  · refine loraRuns_fst_nodup _ (List.pairwise_map.mpr ?_)
    refine (hp.filter (fun s => s.is_prefill)).imp_of_mem ?_
    intro a B ha hb hab
    have ha2 : a.is_prefill = true := (List.mem_filter.mp ha).2
    have hb2 : B.is_prefill = true := (List.mem_filter.mp hb).2
    rw [ha2, hb2] at hab
    simpa [keyLe] using hab
  · refine loraRuns_fst_nodup _ (List.pairwise_map.mpr ?_)
    refine (hp.filter (fun s => !s.is_prefill)).imp_of_mem ?_
    intro a B ha hb hab
    have ha2 : a.is_prefill = false := by
      have := (List.mem_filter.mp ha).2
      simpa using this
    have hb2 : B.is_prefill = false := by
      have := (List.mem_filter.mp hb).2
      simpa using this
    rw [ha2, hb2] at hab
    simpa [keyLe] using hab

/-- C9: in every formed batch the adapter-run lengths sum to the number of
sessions in the batch — each session contributes exactly 1 to its run
(llm.py lines 239–243) — while the batch row count is the sum of per-session row
counts, where a prefill session contributes its entire history (its prompt,
since `is_prefill` means nothing was generated yet) and a decode session
contributes a single row (llm.py lines 230–238). -/
theorem C9_run_lengths_sum (entries : List ReqEntry) :
    ((loraRuns (((sortStep entries).map Prod.snd).map (fun s => s.lora_id))).map
        Prod.snd).sum = entries.length
    ∧ (prefillInputIds ((sortStep entries).map Prod.snd)).length
          + (decodeInputIds ((sortStep entries).map Prod.snd)).length
        = (((sortStep entries).map Prod.snd).map rowCount).sum := by
  constructor
  · rw [loraRuns_sum, List.length_map, List.length_map]
    exact (List.mergeSort_perm entries reqSortLe).length_eq
  · generalize ((sortStep entries).map Prod.snd) = l
    induction l with
    | nil => rfl
    | cons s rest ih =>
      by_cases h : s.is_prefill = true
      · simp [prefillInputIds, decodeInputIds, rowCount, List.filter_cons, h] at ih ⊢
        omega
      · rw [Bool.not_eq_true] at h
        simp [prefillInputIds, decodeInputIds, rowCount, List.filter_cons, h] at ih ⊢
        omega

/-- The incremental flush mutates only the decode cursors: history, cache slot
and prompt length are untouched. -/
theorem decode_tokens_fst_core (d : List ℕ → List Char) (t : TextGeneration) :
    (t.decode_tokens d).1.output_ids = t.output_ids
    ∧ (t.decode_tokens d).1.cacheLen = t.cacheLen
    ∧ (t.decode_tokens d).1.prompt_len = t.prompt_len := by
  by_cases hc :
      (d (pySlice t.output_ids t.prefix_offset t.read_offset)).length
          < (d (t.output_ids.drop t.prefix_offset)).length
        ∧ (d (t.output_ids.drop t.prefix_offset)).getLast? ≠ some replacementChar
  · have h1 : (t.decode_tokens d).1 =
        { t with prefix_offset := t.read_offset, read_offset := t.output_ids.length } := by
      unfold TextGeneration.decode_tokens
      rw [if_pos hc]
    rw [h1]
    exact ⟨rfl, rfl, rfl⟩
  · have h1 : t.decode_tokens d = (t, []) := by
      unfold TextGeneration.decode_tokens
      rw [if_neg hc]
    rw [h1]
    exact ⟨rfl, rfl, rfl⟩

/-- The gather-phase extension leaves the history unchanged. -/
theorem extendForStep_output (s : TextGeneration) :
    (extendForStep s).output_ids = s.output_ids := by
  unfold extendForStep
  split <;> rfl

/-- The gather-phase extension leaves the prompt length unchanged. -/
theorem extendForStep_prompt (s : TextGeneration) :
    (extendForStep s).prompt_len = s.prompt_len := by
  unfold extendForStep
  split <;> rfl

/-- A prefill-phase session is not extended while gathering. -/
theorem extendForStep_of_prefill (s : TextGeneration)
    (h : s.output_ids.length = s.prompt_len) : extendForStep s = s := by
  simp [extendForStep, TextGeneration.is_prefill, h]

/-- A decode-phase session's cache slot grows by one while gathering. -/
theorem extendForStep_of_decode (s : TextGeneration)
    (h : ¬ s.output_ids.length = s.prompt_len) :
    extendForStep s = { s with cacheLen := s.cacheLen + 1 } := by
  simp [extendForStep, TextGeneration.is_prefill, h]

/-- C3 counterexample: one step on a fresh two-token-prompt session (a prefill
step) appends the chosen token to the history but never extends the cache slot,
so afterwards the slot length is 2 while `len(history)` is 3 — the claimed
equality fails at the end of the step. -/
theorem C3_counterexample :
    (stepSession dEmpty (TextGeneration.create [1, 2] "a" (multiLoraCfg 2)) 7).cacheLen
      ≠ (stepSession dEmpty (TextGeneration.create [1, 2] "a" (multiLoraCfg 2))
          7).output_ids.length := by
  decide

/-- C3 amended: for every surviving session, at the end of any scheduler step the
cache slot length equals `len(history) - 1` — the one missing position is the
just-appended token, whose key/value entries the next step computes. The slot
length equals `len(history)` at the moment just before the append (after the
gather-phase `acquire_one` for decode sessions), the relation `CacheInv` holds
at creation and is preserved by every step, and after a step the session is
never in prefill phase. -/
theorem C3_cache_trails_history_by_one (d : List ℕ → List Char) (s : TextGeneration)
    (tok : ℕ) (h : CacheInv s) :
    CacheInv (stepSession d s tok)
    ∧ (stepSession d s tok).cacheLen + 1 = (stepSession d s tok).output_ids.length
    ∧ (extendForStep s).cacheLen = s.output_ids.length
    ∧ (∀ (input : List ℕ) (lora : String) (cfg : SamplingConfig),
        CacheInv (TextGeneration.create input lora cfg)) := by
  have hcore := decode_tokens_fst_core d ((extendForStep s).appendToken tok)
  have hout : (stepSession d s tok).output_ids = s.output_ids ++ [tok] := by
    unfold stepSession
    rw [hcore.1]
    simp [TextGeneration.appendToken, extendForStep_output]
  have hcache : (stepSession d s tok).cacheLen = (extendForStep s).cacheLen := by
    unfold stepSession
    rw [hcore.2.1]
    simp [TextGeneration.appendToken]
  have hprompt : (stepSession d s tok).prompt_len = s.prompt_len := by
    unfold stepSession
    rw [hcore.2.2]
    simp [TextGeneration.appendToken, extendForStep_prompt]
  have hext : (extendForStep s).cacheLen = s.output_ids.length := by
    by_cases hp : s.output_ids.length = s.prompt_len
    · rw [extendForStep_of_prefill s hp]
      exact h.2.1 (by simp [TextGeneration.is_prefill, hp])
    · rw [extendForStep_of_decode s hp]
      exact h.2.2 (by simp [TextGeneration.is_prefill, hp])
  have hlen : (stepSession d s tok).output_ids.length = s.output_ids.length + 1 := by
    rw [hout]
    simp
  have h1 := h.1
  refine ⟨⟨?_, ?_, ?_⟩, ?_, hext, ?_⟩
  · rw [hprompt, hlen]
    omega
  · intro hpre
    exfalso
    simp only [TextGeneration.is_prefill, decide_eq_true_eq, hlen, hprompt] at hpre
    omega
  · intro _
    rw [hcache, hext, hlen]
  · rw [hcache, hext, hlen]
  · intro input lora cfg
    exact ⟨Nat.le_refl _, fun _ => rfl, fun hfalse => by
      simp [TextGeneration.is_prefill, TextGeneration.create] at hfalse⟩

/-- Witness for C3's amended invariant at a concrete session and step. -/
theorem C3_cache_trails_history_by_one_witness :
    CacheInv (TextGeneration.create [1, 2] "a" (multiLoraCfg 2))
    ∧ (stepSession dEmpty (TextGeneration.create [1, 2] "a" (multiLoraCfg 2)) 7).cacheLen + 1
        = (stepSession dEmpty (TextGeneration.create [1, 2] "a" (multiLoraCfg 2))
            7).output_ids.length :=
  ⟨by unfold CacheInv TextGeneration.is_prefill; decide,
    (C3_cache_trails_history_by_one dEmpty (TextGeneration.create [1, 2] "a" (multiLoraCfg 2))
      7 (by unfold CacheInv TextGeneration.is_prefill; decide)).2.1⟩

/-- A session source with exactly one prompt in every queue. -/
def specsOne : String → LoraSpecM :=
  fun _ => ⟨[[1]], [[1]]⟩

/-- A session that has hit its stop token (eos = 2 appended after the one-token
prompt `[1]`). -/
def stoppedSession : TextGeneration :=
  (TextGeneration.create [1] "m" (multiLoraCfg 2)).appendToken 2

/-- A scheduler state in which key `("m", "lora")` holds a stopped session and
its prompt queue is exhausted (`req_counter = 1` with a single prompt), with one
active session left. -/
def stExhausted : SchedState where
  reqctx := [(("m", "lora"), stoppedSession)]
  req_counter := fun _ => 1
  counter := 1

/-- C1: at `stExhausted` the stop check fires, `_delete_request` removes the key
and `_create_request` finds the queue exhausted, so it decrements `counter` by
exactly one and re-inserts nothing — the key is absent from the session map, as
the claim says.  But the step loop does not continue without error: the
unguarded `self.reqctx[(model_name, lora_or_base)].decode_tokens()` on llm.py
line 277 then looks up the removed key and raises `KeyError`. -/
theorem C1_exhausted_recycle_keyerror :
    stoppedSession.is_stop = true
    ∧ (createRequest specsOne 2
          { stExhausted with reqctx := assocErase stExhausted.reqctx ("m", "lora") }
          "m" "lora").map
        (fun st => (st.counter, st.reqctx.length, assocFind? st.reqctx ("m", "lora")))
        = Except.ok ((0 : ℤ), (0 : ℕ), (none : Option TextGeneration))
    ∧ recycleFinished specsOne 2 dEmpty stExhausted "m" "lora" = Except.error "KeyError" :=
  ⟨rfl, rfl, rfl⟩

end VLora
